import Mathlib

/-!
Verification development for the `cloudflare-kv-cache` wrapper
(`src/CloudflareKVCache.js`).

The JavaScript module wraps an arbitrary function with a Cloudflare-KV-backed
memoization layer.  This file gives a shallow embedding of the module:

* runtime values are the inductive `JSVal` (JavaScript `undefined` is the
  distinguished absence sentinel, `JVal` are the JSON-serializable values);
* a JSON codec (`jprintV` / `jparse`) models `JSON.stringify` / `JSON.parse`
  on the value domain used by the wrapper (null, booleans, integer numbers,
  strings with quote/backslash escaping, arrays, objects);
* effectful operations are state transformers `M α = WState → Except JSErr α
  × WState`, where `WState` records the external store contents, injected
  store failures, the traces of store calls, the memoized runtime-import flag
  of `resolveKV`, and counters for imports, binding lookups and capability
  checks;
* each function of the source (`kvCache`, `resolveKV`, `computeKey`, `cache`,
  `raw`, `get`, `set`, `clear`, `defaultGet`, `defaultSet`) is translated
  line by line into a definition below (`cache`/`get`/`set`/`clear` are named
  `cacheCall`/`getOp`/`setOp`/`clearOp` to avoid clashing with library
  names, and the `prefix` option is named `pfx`).
-/

/-! ## JSON-serializable values -/

mutual
/-- JSON values: the serializable domain of the default get/set strategies.
Numbers are modelled as integers (the exact-integer fragment of JS floats). -/
inductive JVal : Type where
  | null : JVal
  | bool (b : Bool) : JVal
  | num (n : Int) : JVal
  | str (s : List Char) : JVal
  | arr (xs : JArr) : JVal
  | obj (fs : JObj) : JVal

/-- Array element lists of `JVal`. -/
inductive JArr : Type where
  | nil : JArr
  | cons (hd : JVal) (tl : JArr) : JArr

/-- Object field lists of `JVal` (insertion ordered, as in JS). -/
inductive JObj : Type where
  | nil : JObj
  | cons (k : List Char) (v : JVal) (tl : JObj) : JObj
end

/-! ## JSON codec: printing -/

/-- The character for digit `n` (`0 ≤ n ≤ 9`). -/
def digitChar (n : Nat) : Char := Char.ofNat (48 + n)

/-- Numeric value of a digit character. -/
def digitVal (c : Char) : Nat := c.toNat - 48

/-- Decimal digit test. -/
def isDigit (c : Char) : Bool := decide (48 ≤ c.toNat ∧ c.toNat ≤ 57)

/-- Decimal digits of a natural number, most significant first; structural on
a fuel argument so that it evaluates by definitional reduction. The fuel-0 arm
is never reached when the fuel bounds the number. -/
def natDigitsF : Nat → Nat → List Char
  | 0, n => [digitChar (n % 10)]
  | f + 1, n =>
    if n < 10 then [digitChar n]
    else natDigitsF f (n / 10) ++ [digitChar (n % 10)]

/-- Decimal digits of a natural number, most significant first. -/
def natDigits (n : Nat) : List Char := natDigitsF n n

/-- Decimal rendering of an integer, as `JSON.stringify` produces it. -/
def intChars (i : Int) : List Char :=
  if i < 0 then '-' :: natDigits i.natAbs else natDigits i.natAbs

/-- String-body escaping used by `JSON.stringify`: quote and backslash are
preceded by a backslash (the fragment exercised by the wrapper). -/
def escapeStr : List Char → List Char
  | [] => []
  | c :: cs => if c = '"' ∨ c = '\\' then '\\' :: c :: escapeStr cs else c :: escapeStr cs

mutual
/-- Rendering of a JSON value to text. -/
def jprintV : JVal → List Char
  | .null => 'n' :: ['u', 'l', 'l']
  | .bool true => 't' :: ['r', 'u', 'e']
  | .bool false => 'f' :: ['a', 'l', 's', 'e']
  | .num i => intChars i
  | .str s => '"' :: (escapeStr s ++ ['"'])
  | .arr xs => '[' :: jprintArr xs
  | .obj fs => '\x7b' :: jprintObj fs

/-- Rendering of array elements after the opening bracket, closing bracket
included. -/
def jprintArr : JArr → List Char
  | .nil => [']']
  | .cons h t => jprintV h ++ jprintArrTl t

/-- Rendering of the remaining array elements after a first one. -/
def jprintArrTl : JArr → List Char
  | .nil => [']']
  | .cons h t => ',' :: (jprintV h ++ jprintArrTl t)

/-- Rendering of object fields after the opening brace, closing brace
included. -/
def jprintObj : JObj → List Char
  | .nil => ['\x7d']
  | .cons k v t => '"' :: (escapeStr k ++ ('"' :: ':' :: (jprintV v ++ jprintObjTl t)))

/-- Rendering of the remaining object fields after a first one. -/
def jprintObjTl : JObj → List Char
  | .nil => ['\x7d']
  | .cons k v t => ',' :: '"' :: (escapeStr k ++ ('"' :: ':' :: (jprintV v ++ jprintObjTl t)))
end

/-! ## JSON codec: parsing -/

/-- Longest digit run at the head of the input, with the remainder. -/
def takeDigits : List Char → List Char × List Char
  | [] => ([], [])
  | c :: cs =>
    if isDigit c then
      let p := takeDigits cs
      (c :: p.1, p.2)
    else ([], c :: cs)

/-- Value of a digit run, accumulator style. -/
def digitsToNat : Nat → List Char → Nat
  | acc, [] => acc
  | acc, c :: cs => digitsToNat (acc * 10 + digitVal c) cs

/-- String body after the opening quote: a backslash takes the next character
verbatim; an unescaped quote ends the string. -/
def parseQuoted : List Char → Option (List Char × List Char)
  | [] => none
  | '"' :: r => some ([], r)
  | '\\' :: [] => none
  | '\\' :: d :: r2 =>
    match parseQuoted r2 with
    | some (s, rest) => some (d :: s, rest)
    | none => none
  | c :: r =>
    match parseQuoted r with
    | some (s, rest) => some (c :: s, rest)
    | none => none

/-- Match an exact literal tail (for `null`, `true`, `false`). -/
def expectLit (lit : List Char) (v : JVal) (t : List Char) : Option (JVal × List Char) :=
  match lit, t with
  | [], _ => some (v, t)
  | c :: cs, d :: r => if d = c then expectLit cs v r else none
  | _ :: _, [] => none

mutual
/-- Fuel-indexed JSON value parser (the fuel only bounds nesting work; the
top-level wrapper supplies enough for any input). -/
def jparseV : Nat → List Char → Option (JVal × List Char)
  | 0, _ => none
  | _ + 1, [] => none
  | fuel + 1, c :: r =>
    if c = 'n' then expectLit ['u', 'l', 'l'] JVal.null r
    else if c = 't' then expectLit ['r', 'u', 'e'] (JVal.bool true) r
    else if c = 'f' then expectLit ['a', 'l', 's', 'e'] (JVal.bool false) r
    else if c = '"' then
      match parseQuoted r with
      | some (s, r2) => some (JVal.str s, r2)
      | none => none
    else if c = '-' then
      match takeDigits r with
      | ([], _) => none
      | (ds, r2) => some (JVal.num (-(digitsToNat 0 ds : Int)), r2)
    else if isDigit c then
      match takeDigits (c :: r) with
      | ([], _) => none
      | (ds, r2) => some (JVal.num (digitsToNat 0 ds : Int), r2)
    else if c = '[' then
      match jparseArr fuel r with
      | some (xs, r2) => some (JVal.arr xs, r2)
      | none => none
    else if c = '\x7b' then
      match jparseObj fuel r with
      | some (fs, r2) => some (JVal.obj fs, r2)
      | none => none
    else none

/-- Array elements right after the opening bracket. -/
def jparseArr : Nat → List Char → Option (JArr × List Char)
  | 0, _ => none
  | _ + 1, [] => none
  | fuel + 1, c :: r =>
    if c = ']' then some (JArr.nil, r)
    else
      match jparseV fuel (c :: r) with
      | none => none
      | some (v, r2) =>
        match jparseArrTl fuel r2 with
        | none => none
        | some (xs, r3) => some (JArr.cons v xs, r3)

/-- Remaining array elements after a parsed element. -/
def jparseArrTl : Nat → List Char → Option (JArr × List Char)
  | 0, _ => none
  | _ + 1, [] => none
  | fuel + 1, c :: r =>
    if c = ']' then some (JArr.nil, r)
    else if c = ',' then
      match jparseV fuel r with
      | none => none
      | some (v, r2) =>
        match jparseArrTl fuel r2 with
        | none => none
        | some (xs, r3) => some (JArr.cons v xs, r3)
    else none

/-- Object fields right after the opening brace. -/
def jparseObj : Nat → List Char → Option (JObj × List Char)
  | 0, _ => none
  | _ + 1, [] => none
  | fuel + 1, c :: r =>
    if c = '\x7d' then some (JObj.nil, r)
    else if c = '"' then
      match parseQuoted r with
      | none => none
      | some (k, r2) =>
        match r2 with
        | ':' :: r3 =>
          match jparseV fuel r3 with
          | none => none
          | some (v, r4) =>
            match jparseObjTl fuel r4 with
            | none => none
            | some (fs, r5) => some (JObj.cons k v fs, r5)
        | _ => none
    else none

/-- Remaining object fields after a parsed field. -/
def jparseObjTl : Nat → List Char → Option (JObj × List Char)
  | 0, _ => none
  | _ + 1, [] => none
  | fuel + 1, c :: r =>
    if c = '\x7d' then some (JObj.nil, r)
    else if c = ',' then
      match r with
      | '"' :: r1 =>
        match parseQuoted r1 with
        | none => none
        | some (k, r2) =>
          match r2 with
          | ':' :: r3 =>
            match jparseV fuel r3 with
            | none => none
            | some (v, r4) =>
              match jparseObjTl fuel r4 with
              | none => none
              | some (fs, r5) => some (JObj.cons k v fs, r5)
          | _ => none
      | _ => none
    else none
end

/-- Top-level `JSON.parse` model: the whole text must be one value. -/
def jparse (t : List Char) : Option JVal :=
  match jparseV (t.length + 1) t with
  | some (v, []) => some v
  | _ => none

/-! ## Runtime values, errors and world state -/

/-- Runtime values flowing through the wrapper: JavaScript `undefined` (the
absence sentinel) or a serializable value. -/
inductive JSVal : Type where
  | undefined : JSVal
  | val (v : JVal) : JSVal

/-- Whether a runtime value is `undefined` (the `value === undefined` test). -/
def isUndef : JSVal → Bool
  | .undefined => true
  | .val _ => false

/-- Thrown JavaScript exceptions: `TypeError`s raised by `assert`, and other
runtime errors (store failures, custom strategy failures). -/
inductive JSErr : Type where
  | typeError (msg : String)
  | jsError

/-- JavaScript numbers as far as the option validation observes them:
`NaN`, the two infinities, or a finite (rational) value. -/
inductive JSNum : Type where
  | nan
  | posInf
  | negInf
  | fin (q : ℚ)

/-- A Cloudflare KV namespace handle as seen by the capability check of
`resolveKV`: which of the three required methods are present. -/
structure Handle where
  hasGet : Bool
  hasPut : Bool
  hasDelete : Bool

/-- The external store: its contents, injected failures (whether `get`/`put`/
`delete` raises at a key), and the traces of every issued store call. -/
structure StoreState where
  data : List (String × List Char)
  getFails : String → Bool
  putFails : String → Bool
  delFails : String → Bool
  getCalls : List String
  putCalls : List (String × List Char × Int)
  delCalls : List String

/-- The whole interpreter state: the store, the ambient environment of
`cloudflare:workers` (binding name to handle), the memoized-import flag
`runtimeCache` of the wrapped-function instance, and counters for module
imports, binding lookups in the environment, and capability checks. -/
structure WState where
  store : StoreState
  env : String → Option Handle
  runtimeCache : Bool
  imports : Nat
  envLookups : Nat
  capChecks : Nat
  fnCalls : Nat

/-- Effectful computations: state transformers that may throw. A thrown
exception still returns the state reached so far. -/
def M (α : Type) : Type := WState → Except JSErr α × WState

/-! ## Store primitives -/

/-- `KV.get(key)`: records the read; an injected failure raises, otherwise
the stored text is returned (`none` models the KV `null` miss). -/
def kvGet (k : String) : M (Option (List Char)) := fun w =>
  if w.store.getFails k then
    (.error .jsError,
      { w with store := { w.store with getCalls := w.store.getCalls ++ [k] } })
  else
    (.ok (List.lookup k w.store.data),
      { w with store := { w.store with getCalls := w.store.getCalls ++ [k] } })

/-- `KV.put(key, text, ttl)`: records the write; an injected failure raises,
otherwise the entry is stored. -/
def kvPut (k : String) (t : List Char) (ttlSec : Int) : M Unit := fun w =>
  if w.store.putFails k then
    (.error .jsError,
      { w with store := { w.store with putCalls := w.store.putCalls ++ [(k, t, ttlSec)] } })
  else
    (.ok (),
      { w with store := { w.store with
          putCalls := w.store.putCalls ++ [(k, t, ttlSec)]
          data := (k, t) :: w.store.data } })

/-- `KV.delete(key)`: records the deletion; an injected failure raises,
otherwise the entry is removed. -/
def kvDelete (k : String) : M Unit := fun w =>
  if w.store.delFails k then
    (.error .jsError,
      { w with store := { w.store with delCalls := w.store.delCalls ++ [k] } })
  else
    (.ok (),
      { w with store := { w.store with
          delCalls := w.store.delCalls ++ [k]
          data := w.store.data.filter (fun p => !(p.1 == k)) } })

/-! ## Store resolution -/

/-- The state effect of one `resolveKV` call, independent of its outcome: the
memoized `cloudflare:workers` import happens only while `runtimeCache` is
unset; the binding lookup and the capability check are counted on every
call. -/
def resolveState (w : WState) : WState :=
  if w.runtimeCache then
    { w with envLookups := w.envLookups + 1, capChecks := w.capChecks + 1 }
  else
    { w with
      runtimeCache := true
      imports := w.imports + 1
      envLookups := w.envLookups + 1
      capChecks := w.capChecks + 1 }

/-- `resolveKV` from the source: the `cloudflare:workers` import is performed
only when `runtimeCache` is still unset and is memoized; the binding lookup in
the module's `env` and the three-method capability check then run on every
call. A missing or malformed binding raises a `TypeError`. -/
def resolveKV (binding : String) : M Handle := fun w =>
  match (resolveState w).env binding with
  | none => (.error (.typeError "KV binding not found or invalid"), resolveState w)
  | some h =>
    if h.hasGet && h.hasPut && h.hasDelete then (.ok h, resolveState w)
    else (.error (.typeError "KV binding not found or invalid"), resolveState w)

/-! ## Default strategies -/

/-- `defaultGet`: reads the key; a raised store error is caught and treated as
a miss, a `null` store answer is a miss, and text that fails to parse as JSON
is a miss. Every outcome is returned normally, never thrown. -/
def defaultGet (k : String) : M JSVal := fun w =>
  match kvGet k w with
  | (.error _, w1) => (.ok .undefined, w1)
  | (.ok none, w1) => (.ok .undefined, w1)
  | (.ok (some text), w1) =>
    match jparse text with
    | none => (.ok .undefined, w1)
    | some v => (.ok (.val v), w1)

/-- `defaultSet`: skips `undefined` values entirely; otherwise serializes and
writes with the floored TTL, catching and ignoring any store failure. -/
def defaultSet (k : String) (value : JSVal) (ttl : ℚ) : M JSVal := fun w =>
  match value with
  | .undefined => (.ok .undefined, w)
  | .val v =>
    match kvPut k (jprintV v) (Rat.floor ttl) w with
    | (.error _, w1) => (.ok .undefined, w1)
    | (.ok _, w1) => (.ok .undefined, w1)

/-! ## Options and wrap-time validation -/

/-- What a dynamic key function may return: `false` (the bypass sentinel), a
string, or anything else (a contract violation caught at call time). -/
inductive KeyRet : Type where
  | fls
  | strv (s : String)
  | other

/-- A user-supplied key generator, applied to the call arguments. -/
def KeyFn : Type := List JSVal → KeyRet

/-- A user-supplied get strategy `(KV, key) => value`: it may read or mutate
the store and may throw, but has no access to the wrapper's private closure
state (the memoized import, the counters). -/
def GetFn : Type := String → StoreState → Except JSErr JSVal × StoreState

/-- A user-supplied set strategy `(KV, key, value, ttl) => result`. -/
def SetFn : Type := String → JSVal → ℚ → StoreState → Except JSErr JSVal × StoreState

/-- A JavaScript option value: `undefined` (absent), `null`, a boolean, a
number, a string, a non-callable object, or a function of type `F`. -/
inductive OVal (F : Type) : Type where
  | undef
  | nullv
  | boolv (b : Bool)
  | numv (x : JSNum)
  | strv (s : String)
  | objv
  | fnv (f : F)

/-- JavaScript truthiness of an option value. -/
def OVal.truthy {F : Type} : OVal F → Bool
  | .undef => false
  | .nullv => false
  | .boolv b => b
  | .numv .nan => false
  | .numv (.fin q) => !(decide (q = 0))
  | .numv _ => true
  | .strv s => !s.isEmpty
  | .objv => true
  | .fnv _ => true

/-- Whether an option value is a string (`typeof v === 'string'`). -/
def OVal.isStr {F : Type} : OVal F → Bool
  | .strv _ => true
  | _ => false

/-- The options object accepted by the factory and by `kvCache`
(the source's `prefix` option is the field `pfx`). -/
structure KVOptions where
  binding : OVal Unit
  pfx : OVal Unit
  key : OVal KeyFn
  ttl : OVal Unit
  get : OVal GetFn
  set : OVal SetFn

/-- One field of `Object.assign({}, options, fnOptions)`: the per-function
value wins unless it is absent. -/
def mergeField {F : Type} (base over : OVal F) : OVal F :=
  match over with
  | .undef => base
  | x => x

/-- `Object.assign({}, options, fnOptions)` on the option fields. -/
def mergeOptions (base over : KVOptions) : KVOptions :=
  { binding := mergeField base.binding over.binding
    pfx := mergeField base.pfx over.pfx
    key := mergeField base.key over.key
    ttl := mergeField base.ttl over.ttl
    get := mergeField base.get over.get
    set := mergeField base.set over.set }

/-- A JavaScript function value: its declared `name` and its behavior
(modelled as a pure function of the arguments). -/
structure JSFunc where
  name : String
  impl : List JSVal → JSVal

/-- The validated key generator of a configuration. -/
inductive KeyGen : Type where
  | str (s : String)
  | kfn (f : KeyFn)

/-- The effective get strategy. -/
inductive Getter : Type where
  | dflt
  | custom (g : GetFn)

/-- The effective set strategy. -/
inductive Setter : Type where
  | dflt
  | custom (s : SetFn)

/-- The validated, immutable configuration produced by a successful wrap. -/
structure Config where
  binding : String
  pfx : String
  keyGen : KeyGen
  ttl : ℚ
  getter : Getter
  setter : Setter

/-- `opts.binding || 'KV'`. -/
def effBinding (opts : KVOptions) : OVal Unit :=
  if opts.binding.truthy then opts.binding else .strv "KV"

/-- `typeof opts.prefix === 'string' ? opts.prefix : ''`. -/
def effPfx (opts : KVOptions) : String :=
  match opts.pfx with
  | .strv s => s
  | _ => ""

/-- `opts.key || fn.name`. -/
def effKeyGen (opts : KVOptions) (fn : JSFunc) : OVal KeyFn :=
  if opts.key.truthy then opts.key else .strv fn.name

/-- `typeof opts.get === 'function' ? opts.get : defaultGet`. -/
def effGetter (opts : KVOptions) : Getter :=
  match opts.get with
  | .fnv g => .custom g
  | _ => .dflt

/-- `typeof opts.set === 'function' ? opts.set : defaultSet`. -/
def effSetter (opts : KVOptions) : Setter :=
  match opts.set with
  | .fnv s => .custom s
  | _ => .dflt

/-- The `ttl` assertion: `Number.isFinite(ttl) && ttl >= 60`. -/
def ttlAssert (t : OVal Unit) : Bool :=
  match t with
  | .numv (.fin q) => decide (60 ≤ q)
  | _ => false

/-- The `key` assertion on the effective key generator: truthy, and a string
or a function. -/
def keyAssert (kg : OVal KeyFn) : Bool :=
  match kg with
  | .strv s => !s.isEmpty
  | .fnv _ => true
  | _ => false

/-- The final `ttl` check of `kvCache`, producing the configuration. -/
def mkConfig (bnm : String) (p : String) (kg : KeyGen) (ttlv : OVal Unit)
    (g : Getter) (st : Setter) : Except JSErr Config :=
  match ttlv with
  | .numv (.fin q) =>
    if 60 ≤ q then .ok ⟨bnm, p, kg, q, g, st⟩
    else .error (.typeError "ttl must be a number of seconds >= 60")
  | _ => .error (.typeError "ttl must be a number of seconds >= 60")

/-- The `kvCache` wrapper factory from the source: merges the option objects,
computes the effective options, and runs the assertions in source order
(binding, then key, then ttl; the prefix assertion of the source checks the
already-coerced `prefix` and can never fail, so it has no failure branch
here). The result is the validated configuration or the thrown `TypeError`. -/
def kvCache (options : KVOptions) (fn : JSFunc) (fnOptions : KVOptions) :
    Except JSErr Config :=
  match effBinding (mergeOptions options fnOptions) with
  | .strv bs =>
    if bs.isEmpty then .error (.typeError "binding must be a non-empty string")
    else
      match effKeyGen (mergeOptions options fnOptions) fn with
      | .strv ks =>
        if ks.isEmpty then .error (.typeError "key must be string or function")
        else
          mkConfig bs (effPfx (mergeOptions options fnOptions)) (.str ks)
            (mergeOptions options fnOptions).ttl
            (effGetter (mergeOptions options fnOptions))
            (effSetter (mergeOptions options fnOptions))
      | .fnv f =>
        mkConfig bs (effPfx (mergeOptions options fnOptions)) (.kfn f)
          (mergeOptions options fnOptions).ttl
          (effGetter (mergeOptions options fnOptions))
          (effSetter (mergeOptions options fnOptions))
      | _ => .error (.typeError "key must be string or function")
  | _ => .error (.typeError "binding must be a non-empty string")

/-- The exported factory `CloudflareKVCache(options)(fn, fnOptions)`. -/
def CloudflareKVCache (options : KVOptions) (fn : JSFunc) (fnOptions : KVOptions) :
    Except JSErr Config :=
  kvCache options fn fnOptions

/-! ## The wrapped-function surface -/

/-- `computeKey(args)`: a static key is prefixed directly; a dynamic key
function may bypass (`false`), return a string (prefixed), or anything else
(a call-time `TypeError`). Pure: no store interaction. -/
def computeKey (cfg : Config) (args : List JSVal) : Except JSErr (Option String) :=
  match cfg.keyGen with
  | .str s => .ok (some (cfg.pfx ++ s))
  | .kfn f =>
    match f args with
    | .fls => .ok none
    | .strv k => .ok (some (cfg.pfx ++ k))
    | .other => .error (.typeError "key function must return a string or false")

/-- `fn.apply(this, args)`: invokes the original function, counted. -/
def applyFn (fn : JSFunc) (args : List JSVal) : M JSVal := fun w =>
  (.ok (fn.impl args), { w with fnCalls := w.fnCalls + 1 })

/-- Run the effective get strategy on a key. -/
def runGetter (cfg : Config) (k : String) : M JSVal := fun w =>
  match cfg.getter with
  | .dflt => defaultGet k w
  | .custom g =>
    let p := g k w.store
    (p.1, { w with store := p.2 })

/-- Run the effective set strategy on a key, value and TTL. -/
def runSetter (cfg : Config) (k : String) (value : JSVal) (ttl : ℚ) : M JSVal := fun w =>
  match cfg.setter with
  | .dflt => defaultSet k value ttl w
  | .custom s =>
    let p := s k value ttl w.store
    (p.1, { w with store := p.2 })

/-- The wrapped function `cache(...args)` itself: key, bypass check, store
resolution, get strategy, original call on miss, set strategy, fresh result. -/
def cacheCall (cfg : Config) (fn : JSFunc) (args : List JSVal) : M JSVal := fun w =>
  match computeKey cfg args with
  | .error e => (.error e, w)
  | .ok none => applyFn fn args w
  | .ok (some k) =>
    match resolveKV cfg.binding w with
    | (.error e, w1) => (.error e, w1)
    | (.ok _, w1) =>
      match runGetter cfg k w1 with
      | (.error e, w2) => (.error e, w2)
      | (.ok (.val v), w2) => (.ok (.val v), w2)
      | (.ok .undefined, w2) =>
        match applyFn fn args w2 with
        | (.error e, w3) => (.error e, w3)
        | (.ok result, w3) =>
          match runSetter cfg k result cfg.ttl w3 with
          | (.error e, w4) => (.error e, w4)
          | (.ok _, w4) => (.ok result, w4)

/-- `cache.raw(...args)`: always the original function, nothing else. -/
def rawOp (fn : JSFunc) (args : List JSVal) : M JSVal :=
  applyFn fn args

/-- `cache.get(...args)`: bypass yields `undefined` without store contact;
otherwise resolve and run the get strategy. -/
def getOp (cfg : Config) (args : List JSVal) : M JSVal := fun w =>
  match computeKey cfg args with
  | .error e => (.error e, w)
  | .ok none => (.ok .undefined, w)
  | .ok (some k) =>
    match resolveKV cfg.binding w with
    | (.error e, w1) => (.error e, w1)
    | (.ok _, w1) => runGetter cfg k w1

/-- `cache.set(...args, value)`: the trailing argument is the value, the rest
derive the key; bypass or an `undefined` value skips the store entirely. -/
def setOp (cfg : Config) (argsAndValue : List JSVal) : M JSVal := fun w =>
  match computeKey cfg argsAndValue.dropLast with
  | .error e => (.error e, w)
  | .ok none => (.ok .undefined, w)
  | .ok (some k) =>
    if isUndef ((argsAndValue.getLast?).getD JSVal.undefined) then (.ok .undefined, w)
    else
      match resolveKV cfg.binding w with
      | (.error e, w1) => (.error e, w1)
      | (.ok _, w1) =>
        runSetter cfg k ((argsAndValue.getLast?).getD JSVal.undefined) cfg.ttl w1

/-- `cache.clear(...args)`: bypass is a no-op; otherwise resolve and delete. -/
def clearOp (cfg : Config) (args : List JSVal) : M JSVal := fun w =>
  match computeKey cfg args with
  | .error e => (.error e, w)
  | .ok none => (.ok .undefined, w)
  | .ok (some k) =>
    match resolveKV cfg.binding w with
    | (.error e, w1) => (.error e, w1)
    | (.ok _, w1) =>
      match kvDelete k w1 with
      | (.error e, w2) => (.error e, w2)
      | (.ok _, w2) => (.ok .undefined, w2)

/-! ## Operation sequences on one instance -/

/-- One public operation on a wrapped-function instance. -/
inductive Op : Type where
  | call (args : List JSVal)
  | getA (args : List JSVal)
  | setA (argsAndValue : List JSVal)
  | clearA (args : List JSVal)

/-- Dispatch one operation. -/
def runOp (cfg : Config) (fn : JSFunc) : Op → M JSVal
  | .call args => cacheCall cfg fn args
  | .getA args => getOp cfg args
  | .setA av => setOp cfg av
  | .clearA args => clearOp cfg args

/-- Run a sequence of operations on the same instance, threading the state
(a rejected operation leaves the instance usable, as in JS). -/
def runOps (cfg : Config) (fn : JSFunc) : List Op → WState → WState
  | [], w => w
  | op :: ops, w => runOps cfg fn ops (runOp cfg fn op w).2

/-! ## Derived notions used by the theorems -/

/-- The environment resolves the binding to a handle passing the capability
check. -/
def envOK (env : String → Option Handle) (b : String) : Bool :=
  match env b with
  | some h => h.hasGet && h.hasPut && h.hasDelete
  | none => false

/-- The default get strategy reports a miss at `k` in this store: the read
fails, or the key is absent, or the stored text is not valid JSON. -/
def missAt (st : StoreState) (k : String) : Prop :=
  st.getFails k = true
    ∨ List.lookup k st.data = none
    ∨ (∃ t, List.lookup k st.data = some t ∧ jparse t = none)

/-- Import budget: performed imports plus the one still allowed while
`runtimeCache` is unset. `resolveKV` never increases it. -/
def importBudget (w : WState) : Nat :=
  w.imports + (if w.runtimeCache then 0 else 1)

/-- Whether the text starts with a decimal digit (a digit run parsed right
before it would absorb it). -/
def digitHead : List Char → Bool
  | [] => false
  | c :: _ => isDigit c

/-! ## Concrete fixtures used by counterexamples and witnesses -/

/-- An options object with every field absent. -/
def emptyOpts : KVOptions := ⟨.undef, .undef, .undef, .undef, .undef, .undef⟩

/-- An empty store where no operation fails. -/
def emptyStore : StoreState := ⟨[], fun _ => false, fun _ => false, fun _ => false, [], [], []⟩

/-- An environment exposing one fully capable handle under the binding
`"KV"`. -/
def goodEnv : String → Option Handle := fun b => if b = "KV" then some ⟨true, true, true⟩ else none

/-- A fresh world: empty store, good environment, nothing resolved yet. -/
def freshW : WState := ⟨emptyStore, goodEnv, false, 0, 0, 0, 0⟩

/-- A configuration with static key `"k"`, ttl 60 and default strategies. -/
def plainCfg : Config := ⟨"KV", "", .str "k", 60, .dflt, .dflt⟩

/-- A wrapped function returning the number 7. -/
def constFn : JSFunc := ⟨"f", fun _ => .val (.num 7)⟩

/-- A custom set strategy that always throws. -/
def throwingSetter : SetFn := fun _ _ _ st => (.error .jsError, st)

/-- `plainCfg` with the throwing set strategy installed. -/
def throwCfg : Config := ⟨"KV", "", .str "k", 60, .dflt, .custom throwingSetter⟩

/-- A configuration whose key function always returns the bypass sentinel. -/
def bypassCfg : Config := ⟨"KV", "", .kfn (fun _ => .fls), 60, .dflt, .dflt⟩

/-- An anonymous function (declared name is the empty string). -/
def anonFn : JSFunc := ⟨"", fun _ => .val .null⟩

/-- Options with binding explicitly set to the empty string, key `"k"`,
ttl 60. -/
def o9opts : KVOptions := ⟨.strv "", .undef, .strv "k", .numv (.fin 60), .undef, .undef⟩

/-- Valid options: key `"k"`, ttl 60, everything else defaulted. -/
def o3opts : KVOptions := ⟨.undef, .undef, .strv "k", .numv (.fin 60), .undef, .undef⟩

/-- A world whose store raises on every read. -/
def wFailGet : WState :=
  ⟨⟨[], fun _ => true, fun _ => false, fun _ => false, [], [], []⟩, goodEnv, false, 0, 0, 0, 0⟩

/-- A compound serializable value exercising numbers, escapes and nesting. -/
def v6 : JVal :=
  .arr (.cons (.num (-12)) (.cons (.str ['h', '"', 'i']) (.cons (.obj (.cons ['k'] .null .nil)) .nil)))

/-- A world whose store already holds the fresh entry `5` at key `"k"`. -/
def wSeeded : WState :=
  ⟨⟨[("k", jprintV (JVal.num 5))], fun _ => false, fun _ => false, fun _ => false, [], [], []⟩,
    goodEnv, false, 0, 0, 0, 0⟩

/-- A world whose store raises on every write. -/
def wPutFail : WState :=
  ⟨⟨[], fun _ => false, fun _ => true, fun _ => false, [], [], []⟩, goodEnv, false, 0, 0, 0, 0⟩

/-- Options with key `"k"` but ttl 59 (one below the minimum). -/
def o59opts : KVOptions := ⟨.undef, .undef, .strv "k", .numv (.fin 59), .undef, .undef⟩

/-- Options whose binding is a truthy non-string (the number 1). -/
def o9bad : KVOptions := ⟨.numv (.fin 1), .undef, .strv "k", .numv (.fin 60), .undef, .undef⟩

/-! ## Codec lemmas: literals, strings, digits -/

theorem expectLit_self (v : JVal) : ∀ (cs r : List Char), expectLit cs v (cs ++ r) = some (v, r)
  | [], _ => rfl
  | c :: cs, r => by
    simp only [List.cons_append, expectLit, if_pos rfl]
    exact expectLit_self v cs r

theorem parseQuoted_plain (c : Char) (r : List Char) (h1 : ¬c = '"') (h2 : ¬c = '\\') :
    parseQuoted (c :: r) = match parseQuoted r with
      | some (s, rest) => some (c :: s, rest)
      | none => none := by
  rw [parseQuoted.eq_def]
  split <;> simp_all

theorem parseQuoted_escape : ∀ (s r : List Char),
    parseQuoted (escapeStr s ++ ('"' :: r)) = some (s, r)
  | [], _ => rfl
  | c :: cs, r => by
    by_cases hc : c = '"' ∨ c = '\\'
    · simp only [escapeStr, if_pos hc, List.cons_append]
      show (match parseQuoted (escapeStr cs ++ ('"' :: r)) with
        | some (s, rest) => some (c :: s, rest)
        | none => none) = _
      rw [parseQuoted_escape cs r]
    · simp only [escapeStr, if_neg hc, List.cons_append]
      push_neg at hc
      rw [parseQuoted_plain c _ hc.1 hc.2, parseQuoted_escape cs r]

theorem digitVal_digitChar (k : Nat) (h : k < 10) : digitVal (digitChar k) = k := by
  interval_cases k <;> decide

theorem isDigit_digitChar (k : Nat) (h : k < 10) : isDigit (digitChar k) = true := by
  interval_cases k <;> decide

theorem isDigit_char_ne (c : Char) (h : isDigit c = true) :
    ¬c = 'n' ∧ ¬c = 't' ∧ ¬c = 'f' ∧ ¬c = '"' ∧ ¬c = '-' ∧ ¬c = '[' ∧ ¬c = '\x7b'
      ∧ ¬c = ']' ∧ ¬c = ',' ∧ ¬c = '\x7d' ∧ ¬c = ':' :=
  ⟨fun e => absurd h (by subst e; decide), fun e => absurd h (by subst e; decide),
   fun e => absurd h (by subst e; decide), fun e => absurd h (by subst e; decide),
   fun e => absurd h (by subst e; decide), fun e => absurd h (by subst e; decide),
   fun e => absurd h (by subst e; decide), fun e => absurd h (by subst e; decide),
   fun e => absurd h (by subst e; decide), fun e => absurd h (by subst e; decide),
   fun e => absurd h (by subst e; decide)⟩

theorem natDigitsF_ne_nil : ∀ (f n : Nat), natDigitsF f n ≠ []
  | 0, n => by simp [natDigitsF]
  | f + 1, n => by
    simp only [natDigitsF]
    split <;> simp

theorem natDigitsF_digits : ∀ (f n : Nat) (c : Char), c ∈ natDigitsF f n → isDigit c = true
  | 0, n, c, hc => by
    simp only [natDigitsF, List.mem_singleton] at hc
    subst hc
    exact isDigit_digitChar _ (Nat.mod_lt _ (by omega))
  | f + 1, n, c, hc => by
    simp only [natDigitsF] at hc
    split at hc
    · rw [List.mem_singleton] at hc
      subst hc
      exact isDigit_digitChar _ (by omega)
    · rw [List.mem_append] at hc
      cases hc with
      | inl hm => exact natDigitsF_digits f (n / 10) c hm
      | inr hm =>
        rw [List.mem_singleton] at hm
        subst hm
        exact isDigit_digitChar _ (Nat.mod_lt _ (by omega))

theorem digitsToNat_concat : ∀ (xs : List Char) (acc : Nat) (c : Char),
    digitsToNat acc (xs ++ [c]) = 10 * digitsToNat acc xs + digitVal c := by
  intro xs
  induction xs with
  | nil =>
    intro acc c
    show acc * 10 + digitVal c = 10 * acc + digitVal c
    omega
  | cons d xs ih =>
    intro acc c
    show digitsToNat (acc * 10 + digitVal d) (xs ++ [c])
      = 10 * digitsToNat (acc * 10 + digitVal d) xs + digitVal c
    exact ih _ c

theorem natDigitsF_value : ∀ (f n : Nat), n ≤ f → digitsToNat 0 (natDigitsF f n) = n
  | 0, n, hn => by
    have : n = 0 := by omega
    subst this
    decide
  | f + 1, n, hn => by
    simp only [natDigitsF]
    split
    · rename_i h10
      show 0 * 10 + digitVal (digitChar n) = n
      rw [digitVal_digitChar n h10]
      omega
    · rename_i h10
      rw [digitsToNat_concat]
      have hdiv : n / 10 ≤ f := by
        have h0 : 0 < n := by omega
        have h1 : (1 : Nat) < 10 := by omega
        have := Nat.div_lt_self h0 h1
        omega
      rw [natDigitsF_value f (n / 10) hdiv]
      rw [digitVal_digitChar _ (Nat.mod_lt _ (by omega))]
      omega

theorem natDigits_value (n : Nat) : digitsToNat 0 (natDigits n) = n :=
  natDigitsF_value n n (Nat.le_refl n)

theorem natDigits_cons (n : Nat) :
    ∃ c t, natDigits n = c :: t ∧ isDigit c = true := by
  unfold natDigits
  match h : natDigitsF n n with
  | [] => exact absurd h (natDigitsF_ne_nil n n)
  | c :: t =>
    refine ⟨c, t, rfl, natDigitsF_digits n n c ?_⟩
    rw [h]
    exact List.mem_cons_self c t

theorem takeDigits_stop (t : List Char) (h : digitHead t = false) : takeDigits t = ([], t) := by
  cases t with
  | nil => rfl
  | cons c r =>
    simp only [digitHead] at h
    simp [takeDigits, h]

theorem takeDigits_run : ∀ (ds t : List Char), (∀ c ∈ ds, isDigit c = true) →
    digitHead t = false → takeDigits (ds ++ t) = (ds, t)
  | [], t, _, ht => by simpa using takeDigits_stop t ht
  | c :: ds, t, hds, ht => by
    have hc : isDigit c = true := hds c (List.mem_cons_self c ds)
    have ih := takeDigits_run ds t (fun x hx => hds x (List.mem_cons_of_mem c hx)) ht
    simp only [List.cons_append, takeDigits, if_pos hc, List.append_eq, ih]

/-! ## Parser step lemmas (definitional unfoldings) -/

theorem jparseV_cons (fuel : Nat) (c : Char) (r : List Char) :
    jparseV (fuel + 1) (c :: r) =
      (if c = 'n' then expectLit ['u', 'l', 'l'] JVal.null r
      else if c = 't' then expectLit ['r', 'u', 'e'] (JVal.bool true) r
      else if c = 'f' then expectLit ['a', 'l', 's', 'e'] (JVal.bool false) r
      else if c = '"' then
        match parseQuoted r with
        | some (s, r2) => some (JVal.str s, r2)
        | none => none
      else if c = '-' then
        match takeDigits r with
        | ([], _) => none
        | (ds, r2) => some (JVal.num (-(digitsToNat 0 ds : Int)), r2)
      else if isDigit c then
        match takeDigits (c :: r) with
        | ([], _) => none
        | (ds, r2) => some (JVal.num (digitsToNat 0 ds : Int), r2)
      else if c = '[' then
        match jparseArr fuel r with
        | some (xs, r2) => some (JVal.arr xs, r2)
        | none => none
      else if c = '\x7b' then
        match jparseObj fuel r with
        | some (fs, r2) => some (JVal.obj fs, r2)
        | none => none
      else none) := rfl

theorem jparseV_str_step (fuel : Nat) (r : List Char) :
    jparseV (fuel + 1) ('"' :: r) =
      match parseQuoted r with
      | some (s, r2) => some (JVal.str s, r2)
      | none => none := rfl

theorem jparseV_arr_step (fuel : Nat) (r : List Char) :
    jparseV (fuel + 1) ('[' :: r) =
      match jparseArr fuel r with
      | some (xs, r2) => some (JVal.arr xs, r2)
      | none => none := rfl

theorem jparseV_obj_step (fuel : Nat) (r : List Char) :
    jparseV (fuel + 1) ('\x7b' :: r) =
      match jparseObj fuel r with
      | some (fs, r2) => some (JVal.obj fs, r2)
      | none => none := rfl

theorem jparseArr_cons (fuel : Nat) (c : Char) (r : List Char) (h : ¬c = ']') :
    jparseArr (fuel + 1) (c :: r) =
      match jparseV fuel (c :: r) with
      | none => none
      | some (v, r2) =>
        match jparseArrTl fuel r2 with
        | none => none
        | some (xs, r3) => some (JArr.cons v xs, r3) := by
  show (if c = ']' then some (JArr.nil, r)
    else match jparseV fuel (c :: r) with
      | none => none
      | some (v, r2) =>
        match jparseArrTl fuel r2 with
        | none => none
        | some (xs, r3) => some (JArr.cons v xs, r3)) = _
  rw [if_neg h]

theorem jparseArrTl_comma_step (fuel : Nat) (r : List Char) :
    jparseArrTl (fuel + 1) (',' :: r) =
      match jparseV fuel r with
      | none => none
      | some (v, r2) =>
        match jparseArrTl fuel r2 with
        | none => none
        | some (xs, r3) => some (JArr.cons v xs, r3) := rfl

theorem jparseObj_quote_step (fuel : Nat) (r : List Char) :
    jparseObj (fuel + 1) ('"' :: r) =
      match parseQuoted r with
      | none => none
      | some (k, r2) =>
        match r2 with
        | ':' :: r3 =>
          match jparseV fuel r3 with
          | none => none
          | some (v, r4) =>
            match jparseObjTl fuel r4 with
            | none => none
            | some (fs, r5) => some (JObj.cons k v fs, r5)
        | _ => none := rfl

theorem jparseObjTl_comma_step (fuel : Nat) (r1 : List Char) :
    jparseObjTl (fuel + 1) (',' :: '"' :: r1) =
      match parseQuoted r1 with
      | none => none
      | some (k, r2) =>
        match r2 with
        | ':' :: r3 =>
          match jparseV fuel r3 with
          | none => none
          | some (v, r4) =>
            match jparseObjTl fuel r4 with
            | none => none
            | some (fs, r5) => some (JObj.cons k v fs, r5)
        | _ => none := rfl

/-! ## Rendering shape lemmas -/

theorem jprintV_length_pos (v : JVal) : 0 < (jprintV v).length := by
  cases v with
  | null => simp [jprintV]
  | bool b => cases b <;> simp [jprintV]
  | num i =>
    simp only [jprintV]
    unfold intChars
    split
    · simp
    · rw [List.length_pos]
      exact natDigitsF_ne_nil _ _
  | str s => simp [jprintV]
  | arr xs => simp [jprintV]
  | obj fs => simp [jprintV]

theorem jprintArrTl_length_pos (t : JArr) : 0 < (jprintArrTl t).length := by
  cases t <;> simp [jprintArrTl]

theorem jprintObjTl_length_pos (t : JObj) : 0 < (jprintObjTl t).length := by
  cases t <;> simp [jprintObjTl]

theorem jprintV_head (v : JVal) : ∃ c t, jprintV v = c :: t ∧ ¬c = ']' := by
  cases v with
  | null => exact ⟨'n', _, rfl, by decide⟩
  | bool b =>
    cases b
    · exact ⟨'f', _, rfl, by decide⟩
    · exact ⟨'t', _, rfl, by decide⟩
  | num i =>
    by_cases hi : i < 0
    · refine ⟨'-', natDigits i.natAbs, ?_, by decide⟩
      simp [jprintV, intChars, hi]
    · obtain ⟨c, t, hct, hc⟩ := natDigits_cons i.natAbs
      refine ⟨c, t, ?_, (isDigit_char_ne c hc).2.2.2.2.2.2.2.1⟩
      simp [jprintV, intChars, hi, hct]
  | str s => exact ⟨'"', _, rfl, by decide⟩
  | arr xs => exact ⟨'[', _, rfl, by decide⟩
  | obj fs => exact ⟨'\x7b', _, rfl, by decide⟩

theorem digitHead_arrTl (t : JArr) (r : List Char) :
    digitHead (jprintArrTl t ++ r) = false := by
  cases t <;> rfl

theorem digitHead_objTl (t : JObj) (r : List Char) :
    digitHead (jprintObjTl t ++ r) = false := by
  cases t <;> rfl

/-! ## Number round-trip -/

theorem jparseV_num (i : Int) (fuel : Nat) (rest : List Char) (hr : digitHead rest = false) :
    jparseV (fuel + 1) (intChars i ++ rest) = some (JVal.num i, rest) := by
  by_cases hi : i < 0
  · have hic : intChars i = '-' :: natDigits i.natAbs := by simp [intChars, hi]
    rw [hic]
    show (match takeDigits (natDigits i.natAbs ++ rest) with
      | ([], _) => none
      | (ds, r2) => some (JVal.num (-(digitsToNat 0 ds : Int)), r2)) = _
    rw [takeDigits_run (natDigits i.natAbs) rest
      (fun x hx => natDigitsF_digits i.natAbs i.natAbs x hx) hr]
    obtain ⟨c, t, hct, _⟩ := natDigits_cons i.natAbs
    rw [hct]
    show some (JVal.num (-(digitsToNat 0 (c :: t) : Int)), rest) = _
    rw [← hct, natDigits_value]
    have hv : -((i.natAbs : Nat) : Int) = i := by omega
    rw [hv]
  · have hic : intChars i = natDigits i.natAbs := by simp [intChars, hi]
    obtain ⟨c, t, hct, hc⟩ := natDigits_cons i.natAbs
    obtain ⟨h1, h2, h3, h4, h5, _⟩ := isDigit_char_ne c hc
    rw [hic, hct, List.cons_append, jparseV_cons]
    rw [if_neg h1, if_neg h2, if_neg h3, if_neg h4, if_neg h5, if_pos hc]
    have htk : takeDigits (c :: (t ++ rest)) = (c :: t, rest) := by
      have h := takeDigits_run (c :: t) rest
        (by rw [← hct]; exact fun x hx => natDigitsF_digits _ _ x hx) hr
      rw [List.cons_append] at h
      exact h
    rw [htk]
    show some (JVal.num (digitsToNat 0 (c :: t) : Int), rest) = _
    rw [← hct, natDigits_value]
    have hv : ((i.natAbs : Nat) : Int) = i := by omega
    rw [hv]

/-! ## The codec round-trip -/

mutual
theorem rt_jparseV : ∀ (v : JVal) (fuel : Nat) (rest : List Char),
    (jprintV v).length < fuel → digitHead rest = false →
    jparseV fuel (jprintV v ++ rest) = some (v, rest)
  | .null, fuel, rest, hf, _ => by
    cases fuel with
    | zero => exact absurd hf (Nat.not_lt_zero _)
    | succ f => rfl
  | .bool b, fuel, rest, hf, _ => by
    cases fuel with
    | zero => exact absurd hf (Nat.not_lt_zero _)
    | succ f => cases b <;> rfl
  | .num i, fuel, rest, hf, hr => by
    cases fuel with
    | zero => exact absurd hf (Nat.not_lt_zero _)
    | succ f => exact jparseV_num i f rest hr
  | .str s, fuel, rest, hf, _ => by
    cases fuel with
    | zero => exact absurd hf (Nat.not_lt_zero _)
    | succ f =>
      simp only [jprintV, List.cons_append, List.append_assoc, List.singleton_append,
        List.nil_append]
      rw [jparseV_str_step, parseQuoted_escape s rest]
  | .arr xs, fuel, rest, hf, _ => by
    cases fuel with
    | zero => exact absurd hf (Nat.not_lt_zero _)
    | succ f =>
      simp only [jprintV, List.length_cons] at hf
      simp only [jprintV, List.cons_append]
      rw [jparseV_arr_step, rt_jparseArr xs f rest (by omega)]
  | .obj fs, fuel, rest, hf, _ => by
    cases fuel with
    | zero => exact absurd hf (Nat.not_lt_zero _)
    | succ f =>
      simp only [jprintV, List.length_cons] at hf
      simp only [jprintV, List.cons_append]
      rw [jparseV_obj_step, rt_jparseObj fs f rest (by omega)]

theorem rt_jparseArr : ∀ (xs : JArr) (fuel : Nat) (rest : List Char),
    (jprintArr xs).length < fuel →
    jparseArr fuel (jprintArr xs ++ rest) = some (xs, rest)
  | .nil, fuel, rest, hf => by
    cases fuel with
    | zero => exact absurd hf (Nat.not_lt_zero _)
    | succ f => rfl
  | .cons h t, fuel, rest, hf => by
    cases fuel with
    | zero => exact absurd hf (Nat.not_lt_zero _)
    | succ f =>
      have hlv := jprintV_length_pos h
      have hlt := jprintArrTl_length_pos t
      simp only [jprintArr, List.length_append] at hf
      obtain ⟨c, ct, hct, hcne⟩ := jprintV_head h
      have hv := rt_jparseV h f (jprintArrTl t ++ rest) (by omega) (digitHead_arrTl t rest)
      have htl := rt_jparseArrTl t f rest (by omega)
      rw [hct, List.cons_append] at hv
      simp only [jprintArr, List.append_assoc]
      rw [hct, List.cons_append, jparseArr_cons f c _ hcne]
      simp only [hv, htl]

theorem rt_jparseArrTl : ∀ (t : JArr) (fuel : Nat) (rest : List Char),
    (jprintArrTl t).length < fuel →
    jparseArrTl fuel (jprintArrTl t ++ rest) = some (t, rest)
  | .nil, fuel, rest, hf => by
    cases fuel with
    | zero => exact absurd hf (Nat.not_lt_zero _)
    | succ f => rfl
  | .cons h t, fuel, rest, hf => by
    cases fuel with
    | zero => exact absurd hf (Nat.not_lt_zero _)
    | succ f =>
      have hlv := jprintV_length_pos h
      have hlt := jprintArrTl_length_pos t
      simp only [jprintArrTl, List.length_cons, List.length_append] at hf
      have hv := rt_jparseV h f (jprintArrTl t ++ rest) (by omega) (digitHead_arrTl t rest)
      have htl := rt_jparseArrTl t f rest (by omega)
      simp only [jprintArrTl, List.cons_append, List.append_assoc]
      rw [jparseArrTl_comma_step]
      simp only [hv, htl]

theorem rt_jparseObj : ∀ (fs : JObj) (fuel : Nat) (rest : List Char),
    (jprintObj fs).length < fuel →
    jparseObj fuel (jprintObj fs ++ rest) = some (fs, rest)
  | .nil, fuel, rest, hf => by
    cases fuel with
    | zero => exact absurd hf (Nat.not_lt_zero _)
    | succ f => rfl
  | .cons k v t, fuel, rest, hf => by
    cases fuel with
    | zero => exact absurd hf (Nat.not_lt_zero _)
    | succ f =>
      have hlv := jprintV_length_pos v
      have hlt := jprintObjTl_length_pos t
      simp only [jprintObj, List.length_cons, List.length_append] at hf
      have hv := rt_jparseV v f (jprintObjTl t ++ rest) (by omega) (digitHead_objTl t rest)
      have htl := rt_jparseObjTl t f rest (by omega)
      simp only [jprintObj, List.cons_append, List.append_assoc]
      rw [jparseObj_quote_step, parseQuoted_escape k _]
      simp only [hv, htl]

theorem rt_jparseObjTl : ∀ (t : JObj) (fuel : Nat) (rest : List Char),
    (jprintObjTl t).length < fuel →
    jparseObjTl fuel (jprintObjTl t ++ rest) = some (t, rest)
  | .nil, fuel, rest, hf => by
    cases fuel with
    | zero => exact absurd hf (Nat.not_lt_zero _)
    | succ f => rfl
  | .cons k v t, fuel, rest, hf => by
    cases fuel with
    | zero => exact absurd hf (Nat.not_lt_zero _)
    | succ f =>
      have hlv := jprintV_length_pos v
      have hlt := jprintObjTl_length_pos t
      simp only [jprintObjTl, List.length_cons, List.length_append] at hf
      have hv := rt_jparseV v f (jprintObjTl t ++ rest) (by omega) (digitHead_objTl t rest)
      have htl := rt_jparseObjTl t f rest (by omega)
      simp only [jprintObjTl, List.cons_append, List.append_assoc]
      rw [jparseObjTl_comma_step, parseQuoted_escape k _]
      simp only [hv, htl]
end

/-- The round-trip of the modelled `JSON` codec: parsing a rendered value
recovers it exactly. -/
theorem jparse_jprintV (v : JVal) : jparse (jprintV v) = some v := by
  unfold jparse
  have h := rt_jparseV v ((jprintV v).length + 1) [] (by omega) rfl
  rw [List.append_nil] at h
  rw [h]

/-! ## Interpreter frame lemmas -/

theorem resolveState_env (w : WState) : (resolveState w).env = w.env := by
  unfold resolveState
  split <;> rfl

theorem resolveState_store (w : WState) : (resolveState w).store = w.store := by
  unfold resolveState
  split <;> rfl

theorem resolveState_fnCalls (w : WState) : (resolveState w).fnCalls = w.fnCalls := by
  unfold resolveState
  split <;> rfl

theorem resolveState_budget (w : WState) : importBudget (resolveState w) = importBudget w := by
  unfold resolveState importBudget
  cases h : w.runtimeCache <;> simp [h]

theorem resolveKV_ok (b : String) (w : WState) (h : envOK w.env b = true) :
    ∃ hd, resolveKV b w = (.ok hd, resolveState w) := by
  unfold envOK at h
  unfold resolveKV
  rw [resolveState_env]
  cases henv : w.env b with
  | none =>
    simp only [henv] at h
    exact absurd h (by decide)
  | some hd =>
    simp only [henv] at h ⊢
    exact ⟨hd, by rw [if_pos h]⟩

theorem resolveKV_budget (b : String) (w : WState) :
    importBudget (resolveKV b w).2 = importBudget w := by
  unfold resolveKV
  cases henv : (resolveState w).env b with
  | none => simp only [henv]; exact resolveState_budget w
  | some hd =>
    simp only [henv]
    by_cases hc : (hd.hasGet && hd.hasPut && hd.hasDelete) = true
    · rw [if_pos hc]; exact resolveState_budget w
    · rw [if_neg hc]; exact resolveState_budget w

theorem kvGet_budget (k : String) (w : WState) :
    importBudget (kvGet k w).2 = importBudget w := by
  unfold kvGet
  split <;> rfl

theorem kvPut_budget (k : String) (t : List Char) (n : Int) (w : WState) :
    importBudget (kvPut k t n w).2 = importBudget w := by
  unfold kvPut
  split <;> rfl

theorem kvDelete_budget (k : String) (w : WState) :
    importBudget (kvDelete k w).2 = importBudget w := by
  unfold kvDelete
  split <;> rfl

theorem defaultGet_budget (k : String) (w : WState) :
    importBudget (defaultGet k w).2 = importBudget w := by
  have hb := kvGet_budget k w
  unfold defaultGet
  split
  · rename_i heq
    rw [heq] at hb
    exact hb
  · rename_i heq
    rw [heq] at hb
    exact hb
  · rename_i heq
    rw [heq] at hb
    split <;> exact hb

theorem defaultSet_budget (k : String) (value : JSVal) (ttl : ℚ) (w : WState) :
    importBudget (defaultSet k value ttl w).2 = importBudget w := by
  unfold defaultSet
  rcases value with _ | v
  · rfl
  · have hb := kvPut_budget k (jprintV v) (Rat.floor ttl) w
    show importBudget (match kvPut k (jprintV v) (Rat.floor ttl) w with
      | (.error _, w1) => (Except.ok JSVal.undefined, w1)
      | (.ok _, w1) => (Except.ok JSVal.undefined, w1)).2 = importBudget w
    split
    · rename_i heq
      rw [heq] at hb
      exact hb
    · rename_i heq
      rw [heq] at hb
      exact hb

theorem runGetter_budget (cfg : Config) (k : String) (w : WState) :
    importBudget (runGetter cfg k w).2 = importBudget w := by
  unfold runGetter
  rcases cfg.getter with _ | g
  · exact defaultGet_budget k w
  · rfl

theorem runSetter_budget (cfg : Config) (k : String) (value : JSVal) (ttl : ℚ) (w : WState) :
    importBudget (runSetter cfg k value ttl w).2 = importBudget w := by
  unfold runSetter
  rcases cfg.setter with _ | s
  · exact defaultSet_budget k value ttl w
  · rfl

theorem applyFn_budget (fn : JSFunc) (args : List JSVal) (w : WState) :
    importBudget (applyFn fn args w).2 = importBudget w := rfl

theorem cacheCall_budget (cfg : Config) (fn : JSFunc) (args : List JSVal) (w : WState) :
    importBudget (cacheCall cfg fn args w).2 = importBudget w := by
  unfold cacheCall
  split
  · rfl
  · exact applyFn_budget fn args w
  · rename_i k hck
    have hrb := resolveKV_budget cfg.binding w
    split
    · rename_i w1 heq
      rw [heq] at hrb
      exact hrb
    · rename_i w1 heq
      rw [heq] at hrb
      have hgb := runGetter_budget cfg k w1
      split
      · rename_i w2 heq2
        rw [heq2] at hgb
        exact hgb.trans hrb
      · rename_i v w2 heq2
        rw [heq2] at hgb
        exact hgb.trans hrb
      · rename_i w2 heq2
        rw [heq2] at hgb
        split
        · rename_i w3 heq3
          have hab := applyFn_budget fn args w2
          rw [heq3] at hab
          exact hab.trans (hgb.trans hrb)
        · rename_i result w3 heq3
          have hab := applyFn_budget fn args w2
          rw [heq3] at hab
          have hsb := runSetter_budget cfg k result cfg.ttl w3
          split
          · rename_i w4 heq4
            rw [heq4] at hsb
            exact hsb.trans (hab.trans (hgb.trans hrb))
          · rename_i w4 heq4
            rw [heq4] at hsb
            exact hsb.trans (hab.trans (hgb.trans hrb))

theorem getOp_budget (cfg : Config) (args : List JSVal) (w : WState) :
    importBudget (getOp cfg args w).2 = importBudget w := by
  unfold getOp
  split
  · rfl
  · rfl
  · rename_i k hck
    have hrb := resolveKV_budget cfg.binding w
    split
    · rename_i w1 heq
      rw [heq] at hrb
      exact hrb
    · rename_i w1 heq
      rw [heq] at hrb
      exact (runGetter_budget cfg k w1).trans hrb

theorem setOp_budget (cfg : Config) (av : List JSVal) (w : WState) :
    importBudget (setOp cfg av w).2 = importBudget w := by
  unfold setOp
  split
  · rfl
  · rfl
  · rename_i k hck
    split
    · rfl
    · have hrb := resolveKV_budget cfg.binding w
      split
      · rename_i w1 heq
        rw [heq] at hrb
        exact hrb
      · rename_i w1 heq
        rw [heq] at hrb
        exact (runSetter_budget cfg k _ cfg.ttl w1).trans hrb

theorem clearOp_budget (cfg : Config) (args : List JSVal) (w : WState) :
    importBudget (clearOp cfg args w).2 = importBudget w := by
  unfold clearOp
  split
  · rfl
  · rfl
  · rename_i k hck
    have hrb := resolveKV_budget cfg.binding w
    split
    · rename_i w1 heq
      rw [heq] at hrb
      exact hrb
    · rename_i w1 heq
      rw [heq] at hrb
      have hdb := kvDelete_budget k w1
      split
      · rename_i w2 heq2
        rw [heq2] at hdb
        exact hdb.trans hrb
      · rename_i w2 heq2
        rw [heq2] at hdb
        exact hdb.trans hrb

theorem runOp_budget (cfg : Config) (fn : JSFunc) (op : Op) (w : WState) :
    importBudget (runOp cfg fn op w).2 = importBudget w := by
  cases op with
  | call args => exact cacheCall_budget cfg fn args w
  | getA args => exact getOp_budget cfg args w
  | setA av => exact setOp_budget cfg av w
  | clearA args => exact clearOp_budget cfg args w

theorem runOps_budget (cfg : Config) (fn : JSFunc) : ∀ (ops : List Op) (w : WState),
    importBudget (runOps cfg fn ops w) = importBudget w
  | [], _ => rfl
  | op :: ops, w => by
    show importBudget (runOps cfg fn ops (runOp cfg fn op w).2) = _
    rw [runOps_budget cfg fn ops (runOp cfg fn op w).2, runOp_budget cfg fn op w]

/-! ## Behavior lemmas for the default strategies -/

theorem defaultGet_hit (k : String) (w : WState) (text : List Char) (v : JVal)
    (hgf : w.store.getFails k = false)
    (hl : List.lookup k w.store.data = some text)
    (hp : jparse text = some v) :
    defaultGet k w = (.ok (.val v),
      { w with store := { w.store with getCalls := w.store.getCalls ++ [k] } }) := by
  simp only [defaultGet, kvGet]
  simp [hgf, hl, hp]

theorem defaultGet_missE (k : String) (w : WState) (hm : missAt w.store k) :
    defaultGet k w = (.ok .undefined,
      { w with store := { w.store with getCalls := w.store.getCalls ++ [k] } }) := by
  unfold missAt at hm
  simp only [defaultGet, kvGet]
  rcases hm with hm | hm | ⟨t, hl, hp⟩
  · simp [hm]
  · cases hgf : w.store.getFails k <;> simp [hgf, hm]
  · cases hgf : w.store.getFails k <;> simp [hgf, hl, hp]

theorem defaultSet_skip (k : String) (ttl : ℚ) (w : WState) :
    defaultSet k JSVal.undefined ttl w = (.ok .undefined, w) := rfl

theorem defaultSet_write (k : String) (v : JVal) (ttl : ℚ) (w : WState)
    (hpf : w.store.putFails k = false) :
    defaultSet k (.val v) ttl w = (.ok .undefined,
      { w with store := { w.store with
          putCalls := w.store.putCalls ++ [(k, jprintV v, Rat.floor ttl)]
          data := (k, jprintV v) :: w.store.data } }) := by
  simp only [defaultSet, kvPut]
  simp [hpf]

theorem defaultSet_ok (k : String) (value : JSVal) (ttl : ℚ) (w : WState) :
    (defaultSet k value ttl w).1 = .ok .undefined := by
  simp only [defaultSet]
  rcases value with _ | v
  · rfl
  · show (match kvPut k (jprintV v) (Rat.floor ttl) w with
      | (.error _, w1) => (Except.ok JSVal.undefined, w1)
      | (.ok _, w1) => (Except.ok JSVal.undefined, w1)).1 = Except.ok JSVal.undefined
    split <;> rfl

/-! ## Behavior lemmas for the wrapped operations -/

theorem cacheCall_hit (cfg : Config) (fn : JSFunc) (args : List JSVal) (w : WState)
    (k : String) (text : List Char) (v : JVal)
    (hget : cfg.getter = .dflt)
    (hkey : computeKey cfg args = .ok (some k))
    (henv : envOK w.env cfg.binding = true)
    (hgf : w.store.getFails k = false)
    (hl : List.lookup k w.store.data = some text)
    (hp : jparse text = some v) :
    cacheCall cfg fn args w = (.ok (.val v),
      { resolveState w with store :=
          { w.store with getCalls := w.store.getCalls ++ [k] } }) := by
  obtain ⟨hd, hres⟩ := resolveKV_ok cfg.binding w henv
  have hsw := resolveState_store w
  have hdg := defaultGet_hit k (resolveState w) text v
    (by rw [hsw]; exact hgf) (by rw [hsw]; exact hl) hp
  rw [hsw] at hdg
  unfold cacheCall
  simp only [hkey, hres, runGetter, hget, hdg]

theorem cacheCall_miss_defaultSet (cfg : Config) (fn : JSFunc) (args : List JSVal)
    (w : WState) (k : String)
    (hget : cfg.getter = .dflt)
    (hset : cfg.setter = .dflt)
    (hkey : computeKey cfg args = .ok (some k))
    (henv : envOK w.env cfg.binding = true)
    (hm : missAt w.store k) :
    (cacheCall cfg fn args w).1 = .ok (fn.impl args) := by
  obtain ⟨hd, hres⟩ := resolveKV_ok cfg.binding w henv
  have hsw := resolveState_store w
  have hdg := defaultGet_missE k (resolveState w) (by rw [hsw]; exact hm)
  rw [hsw] at hdg
  unfold cacheCall
  simp only [hkey, hres, runGetter, hget, hdg, applyFn, runSetter, hset]
  split
  · rename_i e w4 heq
    have h1 := congrArg Prod.fst heq
    rw [defaultSet_ok] at h1
    exact absurd h1 (by simp)
  · rfl

theorem getOp_hit (cfg : Config) (args : List JSVal) (w : WState)
    (k : String) (text : List Char) (v : JVal)
    (hget : cfg.getter = .dflt)
    (hkey : computeKey cfg args = .ok (some k))
    (henv : envOK w.env cfg.binding = true)
    (hgf : w.store.getFails k = false)
    (hl : List.lookup k w.store.data = some text)
    (hp : jparse text = some v) :
    getOp cfg args w = (.ok (.val v),
      { resolveState w with store :=
          { w.store with getCalls := w.store.getCalls ++ [k] } }) := by
  obtain ⟨hd, hres⟩ := resolveKV_ok cfg.binding w henv
  have hsw := resolveState_store w
  have hdg := defaultGet_hit k (resolveState w) text v
    (by rw [hsw]; exact hgf) (by rw [hsw]; exact hl) hp
  rw [hsw] at hdg
  unfold getOp
  simp only [hkey, hres, runGetter, hget, hdg]

theorem setOp_write (cfg : Config) (args : List JSVal) (v : JVal) (w : WState) (k : String)
    (hset : cfg.setter = .dflt)
    (hkey : computeKey cfg args = .ok (some k))
    (henv : envOK w.env cfg.binding = true)
    (hpf : w.store.putFails k = false) :
    setOp cfg (args ++ [.val v]) w = (.ok .undefined,
      { resolveState w with store := { w.store with
          putCalls := w.store.putCalls ++ [(k, jprintV v, Rat.floor cfg.ttl)]
          data := (k, jprintV v) :: w.store.data } }) := by
  obtain ⟨hd, hres⟩ := resolveKV_ok cfg.binding w henv
  have hsw := resolveState_store w
  have hds := defaultSet_write k v cfg.ttl (resolveState w) (by rw [hsw]; exact hpf)
  rw [hsw] at hds
  unfold setOp
  simp only [List.dropLast_concat, List.getLast?_concat, Option.getD_some, hkey, hres,
    runSetter, hset, hds, isUndef]
  simp

/-! ## Wrap-time validation lemmas -/

theorem mkConfig_fin (bs p : String) (kg : KeyGen) (g : Getter) (st : Setter) (q : ℚ) :
    mkConfig bs p kg (.numv (.fin q)) g st =
      if 60 ≤ q then .ok ⟨bs, p, kg, q, g, st⟩
      else .error (.typeError "ttl must be a number of seconds >= 60") := rfl

theorem mkConfig_err (bs p : String) (kg : KeyGen) (g : Getter) (st : Setter)
    (t : OVal Unit) (h : ttlAssert t = false) :
    mkConfig bs p kg t g st = .error (.typeError "ttl must be a number of seconds >= 60") := by
  unfold ttlAssert at h
  cases t with
  | numv x =>
    cases x with
    | fin q =>
      replace h : decide (60 ≤ q) = false := h
      rw [mkConfig_fin, if_neg (of_decide_eq_false h)]
    | nan => rfl
    | posInf => rfl
    | negInf => rfl
  | undef => rfl
  | nullv => rfl
  | boolv b => rfl
  | strv s => rfl
  | objv => rfl
  | fnv f => rfl

theorem mkConfig_ok (bs p : String) (kg : KeyGen) (g : Getter) (st : Setter)
    (q : ℚ) (h : 60 ≤ q) :
    mkConfig bs p kg (.numv (.fin q)) g st = .ok ⟨bs, p, kg, q, g, st⟩ := by
  rw [mkConfig_fin, if_pos h]

/-! ## Claim C1 -/

/-- C1 (counterexample): the claim says that after the first store-touching
operation has resolved the store handle, no second lookup of the binding in
the ambient environment and no second capability check happen on the same
instance. In the code only the module import is memoized: running a `get`
followed by a `set` on one fresh instance performs two binding lookups and
two capability checks. -/
theorem C1_counterexample :
    ¬ ((runOps plainCfg constFn [Op.getA [], Op.setA [.val .null]] freshW).envLookups ≤ 1)
    ∧ ¬ ((runOps plainCfg constFn [Op.getA [], Op.setA [.val .null]] freshW).capChecks ≤ 1) := by
  constructor
  · decide
  · decide

/-- C1 (amended): what is resolved at most once per wrapped-function instance
is the ambient runtime module import (`runtimeCache`): starting from a fresh
instance, any sequence of `call`/`get`/`set`/`clear` operations performs at
most one import; the binding lookup and the capability check recur on every
store-touching operation (see the counterexample). -/
theorem C1_module_import_at_most_once (cfg : Config) (fn : JSFunc) (ops : List Op)
    (w : WState) (h1 : w.runtimeCache = false) (h2 : w.imports = 0) :
    (runOps cfg fn ops w).imports ≤ 1 := by
  have hb := runOps_budget cfg fn ops w
  have h0 : importBudget w = 1 := by
    unfold importBudget
    rw [h1, h2]
    decide
  rw [h0] at hb
  unfold importBudget at hb
  cases hrc : (runOps cfg fn ops w).runtimeCache <;> rw [hrc] at hb <;> simp at hb <;> omega

/-- C1 (witness): the amended theorem at the concrete two-operation run of the
counterexample: the import still happens at most once. -/
theorem C1_witness :
    (runOps plainCfg constFn [Op.getA [], Op.setA [.val .null]] freshW).imports ≤ 1 :=
  C1_module_import_at_most_once plainCfg constFn [Op.getA [], Op.setA [.val .null]] freshW
    rfl rfl

/-! ## Claim C2 -/

/-- C2 (counterexample): the claim says a failure of the set strategy is never
surfaced to the caller for every set strategy, default or user-supplied. With
a user-supplied set strategy that throws, a miss of the wrapped call rejects
with that error: the failure is surfaced. -/
theorem C2_counterexample :
    (cacheCall throwCfg constFn [] freshW).1 = .error .jsError := rfl

/-- C2 (amended): with the DEFAULT set strategy the claim holds: on a miss the
call returns the freshly computed result and the outcome of the store write is
never observed by the caller — the store's `put` may fail arbitrarily (no
hypothesis restricts `putFails`), the result is still the fresh value. A
user-supplied set strategy that throws does surface (see the
counterexample). -/
theorem C2_default_set_failure_invisible (cfg : Config) (fn : JSFunc) (args : List JSVal)
    (w : WState) (k : String)
    (hget : cfg.getter = .dflt) (hset : cfg.setter = .dflt)
    (hkey : computeKey cfg args = .ok (some k))
    (henv : envOK w.env cfg.binding = true)
    (hm : missAt w.store k) :
    (cacheCall cfg fn args w).1 = .ok (fn.impl args) :=
  cacheCall_miss_defaultSet cfg fn args w k hget hset hkey henv hm

/-- C2 (witness): the amended theorem at a concrete store whose writes always
fail: the call still returns the fresh result 7. -/
theorem C2_witness : (cacheCall plainCfg constFn [] wPutFail).1 = .ok (.val (.num 7)) :=
  C2_default_set_failure_invisible plainCfg constFn [] wPutFail "k" rfl rfl rfl rfl
    (Or.inr (Or.inl rfl))

/-! ## Claim C4 -/

/-- C4: when the dynamic key function returns the bypass sentinel, the wrapped
call invokes the original function with the call arguments and returns its
result, and the state is unchanged except for the invocation counter: no
store resolution (no import, no lookup, no capability check) and no store
operation of any kind is performed. -/
theorem C4_bypass_frame (cfg : Config) (f : KeyFn) (fn : JSFunc) (args : List JSVal)
    (w : WState) (hk : cfg.keyGen = .kfn f) (hb : f args = .fls) :
    cacheCall cfg fn args w = (.ok (fn.impl args), { w with fnCalls := w.fnCalls + 1 }) := by
  have hck : computeKey cfg args = .ok none := by
    unfold computeKey
    simp only [hk, hb]
  unfold cacheCall
  simp only [hck, applyFn]

/-- C4 (witness): the bypass configuration at a concrete call: result 7, one
invocation, nothing else in the world state changes. -/
theorem C4_witness :
    cacheCall bypassCfg constFn [] freshW = (.ok (.val (.num 7)), { freshW with fnCalls := 1 }) :=
  C4_bypass_frame bypassCfg (fun _ => .fls) constFn [] freshW rfl rfl

/-! ## Claim C7 -/

/-- C7: the default get strategy never raises: its outcome is always a normal
return. A failing store read maps to the absence sentinel, a store miss maps
to the absence sentinel, and stored text that does not parse as JSON maps to
the absence sentinel. -/
theorem C7_defaultGet_never_raises (k : String) (w : WState) :
    (∃ r, (defaultGet k w).1 = .ok r)
    ∧ (w.store.getFails k = true → (defaultGet k w).1 = .ok .undefined)
    ∧ (w.store.getFails k = false → List.lookup k w.store.data = none →
        (defaultGet k w).1 = .ok .undefined)
    ∧ (∀ t, List.lookup k w.store.data = some t → jparse t = none →
        (defaultGet k w).1 = .ok .undefined) := by
  refine ⟨?_, ?_, ?_, ?_⟩
  · cases hgf : w.store.getFails k with
    | true => exact ⟨.undefined, by rw [defaultGet_missE k w (Or.inl hgf)]⟩
    | false =>
      cases hl : List.lookup k w.store.data with
      | none => exact ⟨.undefined, by rw [defaultGet_missE k w (Or.inr (Or.inl hl))]⟩
      | some t =>
        cases hp : jparse t with
        | none =>
          exact ⟨.undefined, by rw [defaultGet_missE k w (Or.inr (Or.inr ⟨t, hl, hp⟩))]⟩
        | some v => exact ⟨.val v, by rw [defaultGet_hit k w t v hgf hl hp]⟩
  · intro hgf
    rw [defaultGet_missE k w (Or.inl hgf)]
  · intro hgf hl
    rw [defaultGet_missE k w (Or.inr (Or.inl hl))]
  · intro t hl hp
    rw [defaultGet_missE k w (Or.inr (Or.inr ⟨t, hl, hp⟩))]

/-- C7 (witness): at a store whose reads always raise, the default get
strategy reports absence instead of raising. -/
theorem C7_witness : (defaultGet "k" wFailGet).1 = .ok .undefined :=
  (C7_defaultGet_never_raises "k" wFailGet).2.1 rfl

/-! ## Claim C8 -/

/-- C8: the auxiliary `set` with the absence sentinel as trailing value never
touches the store nor the resolver — the state is unchanged whatever the key
derivation does; likewise `set` is a complete no-op when key derivation
returns the bypass sentinel. -/
theorem C8_set_skip_frame (cfg : Config) (args : List JSVal) (w : WState)
    (av : List JSVal) (f : KeyFn) :
    ((setOp cfg (args ++ [JSVal.undefined]) w).2 = w)
    ∧ (cfg.keyGen = .kfn f → f av.dropLast = .fls →
        setOp cfg av w = (.ok .undefined, w)) := by
  constructor
  · unfold setOp
    cases hck : computeKey cfg (args ++ [JSVal.undefined]).dropLast with
    | error e => simp [hck]
    | ok o =>
      cases o with
      | none => simp [hck]
      | some k => simp [hck, List.getLast?_concat, isUndef]
  · intro hkg hb
    have hck : computeKey cfg av.dropLast = .ok none := by
      unfold computeKey
      simp only [hkg, hb]
    unfold setOp
    simp [hck]

/-- C8 (witness): `set` with only the absence sentinel on the bypass
configuration: the world is returned untouched. -/
theorem C8_witness : setOp bypassCfg [JSVal.undefined] freshW = (.ok .undefined, freshW) :=
  (C8_set_skip_frame bypassCfg [] freshW [JSVal.undefined] (fun _ => .fls)).2 rfl rfl

/-! ## Claim C3 -/

/-- C3: ttl validation at wrap time. If the effective ttl option is not a
finite number at least 60 (in particular when it is absent), `kvCache` throws
a `TypeError` synchronously, before any call is made; a ttl exactly 60 is
always accepted whenever the other wrap-time assertions pass (binding and key
valid), and the accepted configuration carries ttl 60. -/
theorem C3_ttl_validation (options fnOptions : KVOptions) (fn : JSFunc) :
    (ttlAssert (mergeOptions options fnOptions).ttl = false →
      ∃ m, kvCache options fn fnOptions = .error (.typeError m))
    ∧ ((mergeOptions options fnOptions).ttl = .numv (.fin 60) →
      keyAssert (effKeyGen (mergeOptions options fnOptions) fn) = true →
      (∃ s, effBinding (mergeOptions options fnOptions) = .strv s ∧ s.isEmpty = false) →
      ∃ c, kvCache options fn fnOptions = .ok c ∧ c.ttl = 60)
    ∧ ((mergeOptions options fnOptions).ttl = .undef →
      ∃ m, kvCache options fn fnOptions = .error (.typeError m)) := by
  refine ⟨?_, ?_, ?_⟩
  · intro hbad
    unfold kvCache
    cases hb : effBinding (mergeOptions options fnOptions) with
    | strv bs =>
      by_cases hbs : bs.isEmpty = true
      · exact ⟨"binding must be a non-empty string", by simp [hbs]⟩
      · cases hk : effKeyGen (mergeOptions options fnOptions) fn with
        | strv ks =>
          by_cases hks : ks.isEmpty = true
          · exact ⟨"key must be string or function", by simp [hbs, hks]⟩
          · exact ⟨"ttl must be a number of seconds >= 60",
              by simp [hbs, hks, mkConfig_err _ _ _ _ _ _ hbad]⟩
        | fnv f =>
          exact ⟨"ttl must be a number of seconds >= 60",
            by simp [hbs, mkConfig_err _ _ _ _ _ _ hbad]⟩
        | undef => exact ⟨"key must be string or function", by simp [hbs]⟩
        | nullv => exact ⟨"key must be string or function", by simp [hbs]⟩
        | boolv b => exact ⟨"key must be string or function", by simp [hbs]⟩
        | numv x => exact ⟨"key must be string or function", by simp [hbs]⟩
        | objv => exact ⟨"key must be string or function", by simp [hbs]⟩
    | undef => exact ⟨"binding must be a non-empty string", by simp⟩
    | nullv => exact ⟨"binding must be a non-empty string", by simp⟩
    | boolv b => exact ⟨"binding must be a non-empty string", by simp⟩
    | numv x => exact ⟨"binding must be a non-empty string", by simp⟩
    | objv => exact ⟨"binding must be a non-empty string", by simp⟩
    | fnv f => exact ⟨"binding must be a non-empty string", by simp⟩
  · intro httl hkey hbind
    obtain ⟨s, hbs, hse⟩ := hbind
    unfold kvCache
    rw [hbs]
    unfold keyAssert at hkey
    cases hk : effKeyGen (mergeOptions options fnOptions) fn with
    | strv ks =>
      rw [hk] at hkey
      replace hkey : (!ks.isEmpty) = true := hkey
      have hks : ks.isEmpty = false := by
        cases hkse : ks.isEmpty
        · rfl
        · rw [hkse] at hkey; exact Bool.noConfusion hkey
      refine ⟨⟨s, effPfx (mergeOptions options fnOptions), .str ks, 60,
        effGetter (mergeOptions options fnOptions),
        effSetter (mergeOptions options fnOptions)⟩, ?_, rfl⟩
      simp only [hse, hks, httl, Bool.false_eq_true, if_false]
      exact mkConfig_ok _ _ _ _ _ 60 (le_refl _)
    | fnv f =>
      refine ⟨⟨s, effPfx (mergeOptions options fnOptions), .kfn f, 60,
        effGetter (mergeOptions options fnOptions),
        effSetter (mergeOptions options fnOptions)⟩, ?_, rfl⟩
      simp only [hse, httl, Bool.false_eq_true, if_false]
      exact mkConfig_ok _ _ _ _ _ 60 (le_refl _)
    | undef => rw [hk] at hkey; exact Bool.noConfusion hkey
    | nullv => rw [hk] at hkey; exact Bool.noConfusion hkey
    | boolv b => rw [hk] at hkey; exact Bool.noConfusion hkey
    | numv x => rw [hk] at hkey; exact Bool.noConfusion hkey
    | objv => rw [hk] at hkey; exact Bool.noConfusion hkey
  · intro hu
    have hbad : ttlAssert (mergeOptions options fnOptions).ttl = false := by
      rw [hu]; rfl
    -- reuse the first conjunct reasoning by direct re-derivation
    unfold kvCache
    cases hb : effBinding (mergeOptions options fnOptions) with
    | strv bs =>
      by_cases hbs : bs.isEmpty = true
      · exact ⟨"binding must be a non-empty string", by simp [hbs]⟩
      · cases hk : effKeyGen (mergeOptions options fnOptions) fn with
        | strv ks =>
          by_cases hks : ks.isEmpty = true
          · exact ⟨"key must be string or function", by simp [hbs, hks]⟩
          · exact ⟨"ttl must be a number of seconds >= 60",
              by simp [hbs, hks, mkConfig_err _ _ _ _ _ _ hbad]⟩
        | fnv f =>
          exact ⟨"ttl must be a number of seconds >= 60",
            by simp [hbs, mkConfig_err _ _ _ _ _ _ hbad]⟩
        | undef => exact ⟨"key must be string or function", by simp [hbs]⟩
        | nullv => exact ⟨"key must be string or function", by simp [hbs]⟩
        | boolv b => exact ⟨"key must be string or function", by simp [hbs]⟩
        | numv x => exact ⟨"key must be string or function", by simp [hbs]⟩
        | objv => exact ⟨"key must be string or function", by simp [hbs]⟩
    | undef => exact ⟨"binding must be a non-empty string", by simp⟩
    | nullv => exact ⟨"binding must be a non-empty string", by simp⟩
    | boolv b => exact ⟨"binding must be a non-empty string", by simp⟩
    | numv x => exact ⟨"binding must be a non-empty string", by simp⟩
    | objv => exact ⟨"binding must be a non-empty string", by simp⟩
    | fnv f => exact ⟨"binding must be a non-empty string", by simp⟩

/-- C3 (witness): concrete options with key `"k"` and ttl 60 are accepted with
ttl 60; the same options with ttl 59 are rejected with a `TypeError`. -/
theorem C3_witness :
    (∃ c, kvCache o3opts constFn emptyOpts = .ok c ∧ c.ttl = 60)
    ∧ (∃ m, kvCache o59opts constFn emptyOpts = .error (.typeError m)) :=
  ⟨(C3_ttl_validation o3opts emptyOpts constFn).2.1 rfl rfl ⟨"KV", rfl, rfl⟩,
   (C3_ttl_validation o59opts emptyOpts constFn).1 (by decide)⟩

/-! ## Claim C9 -/

/-- C9 (counterexample): the claim says a binding option that is set but is
not a non-empty string makes wrapping fail. With binding explicitly set to
the empty string (and otherwise valid options) wrapping succeeds: the falsy
value falls back to the default `"KV"` instead of failing. -/
theorem C9_counterexample :
    kvCache o9opts constFn emptyOpts = .ok ⟨"KV", "", .str "k", 60, .dflt, .dflt⟩ := rfl

/-- C9 (amended): a binding option that is truthy but not a string fails at
wrap time with the binding `TypeError`; a falsy binding (absence, the empty
string, `0`, `null`, `false`) falls back to `"KV"`, and wrapping then succeeds
whenever key and ttl are valid, with effective binding `"KV"`. -/
theorem C9_binding_validation (options fnOptions : KVOptions) (fn : JSFunc) :
    ((mergeOptions options fnOptions).binding.truthy = true →
      (mergeOptions options fnOptions).binding.isStr = false →
      kvCache options fn fnOptions = .error (.typeError "binding must be a non-empty string"))
    ∧ ((mergeOptions options fnOptions).binding.truthy = false →
      keyAssert (effKeyGen (mergeOptions options fnOptions) fn) = true →
      ttlAssert (mergeOptions options fnOptions).ttl = true →
      ∃ c, kvCache options fn fnOptions = .ok c ∧ c.binding = "KV") := by
  constructor
  · intro htr hstr
    have hb : effBinding (mergeOptions options fnOptions)
        = (mergeOptions options fnOptions).binding := by
      unfold effBinding
      exact if_pos htr
    unfold kvCache
    rw [hb]
    cases hbv : (mergeOptions options fnOptions).binding with
    | strv s =>
      rw [hbv] at hstr
      exact absurd hstr (by simp [OVal.isStr])
    | undef => rfl
    | nullv => rfl
    | boolv b => rfl
    | numv x => rfl
    | objv => rfl
    | fnv f => rfl
  · intro htr hkey httl
    have hb : effBinding (mergeOptions options fnOptions) = .strv "KV" := by
      unfold effBinding
      exact if_neg (by simp [htr])
    unfold kvCache
    rw [hb]
    unfold ttlAssert at httl
    unfold keyAssert at hkey
    cases ht : (mergeOptions options fnOptions).ttl with
    | numv x =>
      cases x with
      | fin q =>
        rw [ht] at httl
        replace httl : decide (60 ≤ q) = true := httl
        have hq : 60 ≤ q := of_decide_eq_true httl
        cases hk : effKeyGen (mergeOptions options fnOptions) fn with
        | strv ks =>
          rw [hk] at hkey
          replace hkey : (!ks.isEmpty) = true := hkey
          have hks : ks.isEmpty = false := by
            cases hkse : ks.isEmpty
            · rfl
            · rw [hkse] at hkey; exact Bool.noConfusion hkey
          refine ⟨⟨"KV", effPfx (mergeOptions options fnOptions), .str ks, q,
            effGetter (mergeOptions options fnOptions),
            effSetter (mergeOptions options fnOptions)⟩, ?_, rfl⟩
          have hKV : ("KV".isEmpty) = false := by decide
          simp only [hKV, hks, Bool.false_eq_true, if_false]
          exact mkConfig_ok _ _ _ _ _ q hq
        | fnv f =>
          refine ⟨⟨"KV", effPfx (mergeOptions options fnOptions), .kfn f, q,
            effGetter (mergeOptions options fnOptions),
            effSetter (mergeOptions options fnOptions)⟩, ?_, rfl⟩
          have hKV : ("KV".isEmpty) = false := by decide
          simp only [hKV, Bool.false_eq_true, if_false]
          exact mkConfig_ok _ _ _ _ _ q hq
        | undef => rw [hk] at hkey; exact Bool.noConfusion hkey
        | nullv => rw [hk] at hkey; exact Bool.noConfusion hkey
        | boolv b => rw [hk] at hkey; exact Bool.noConfusion hkey
        | numv y => rw [hk] at hkey; exact Bool.noConfusion hkey
        | objv => rw [hk] at hkey; exact Bool.noConfusion hkey
      | nan => rw [ht] at httl; exact Bool.noConfusion httl
      | posInf => rw [ht] at httl; exact Bool.noConfusion httl
      | negInf => rw [ht] at httl; exact Bool.noConfusion httl
    | undef => rw [ht] at httl; exact Bool.noConfusion httl
    | nullv => rw [ht] at httl; exact Bool.noConfusion httl
    | boolv b => rw [ht] at httl; exact Bool.noConfusion httl
    | strv s => rw [ht] at httl; exact Bool.noConfusion httl
    | objv => rw [ht] at httl; exact Bool.noConfusion httl
    | fnv f => rw [ht] at httl; exact Bool.noConfusion httl

/-- C9 (witness): the amended theorem at concrete inputs: a numeric binding is
rejected with the binding error; an absent binding defaults to `"KV"` and
wrapping succeeds. -/
theorem C9_witness :
    kvCache o9bad constFn emptyOpts = .error (.typeError "binding must be a non-empty string")
    ∧ (∃ c, kvCache o3opts constFn emptyOpts = .ok c ∧ c.binding = "KV") :=
  ⟨(C9_binding_validation o9bad emptyOpts constFn).1 (by decide) rfl,
   (C9_binding_validation o3opts emptyOpts constFn).2 rfl rfl (by decide)⟩

/-! ## Claim C10 -/

/-- C10: wrapping an anonymous function (declared name is the empty string)
without a key option raises a `TypeError` synchronously at wrap time — the
key defaults to the function's empty name and fails the key assertion — so no
wrapped function is produced. -/
theorem C10_anonymous_requires_key (options fnOptions : KVOptions) (fn : JSFunc)
    (hname : fn.name = "")
    (hkey : (mergeOptions options fnOptions).key = .undef) :
    ∃ m, kvCache options fn fnOptions = .error (.typeError m) := by
  have hkg : effKeyGen (mergeOptions options fnOptions) fn = .strv "" := by
    unfold effKeyGen
    rw [hkey]
    simp [OVal.truthy, hname]
  unfold kvCache
  cases hb : effBinding (mergeOptions options fnOptions) with
  | strv bs =>
    by_cases hbs : bs.isEmpty = true
    · exact ⟨"binding must be a non-empty string", by simp [hbs]⟩
    · have he : ("".isEmpty) = true := by decide
      exact ⟨"key must be string or function", by simp [hbs, hkg, he]⟩
  | undef => exact ⟨"binding must be a non-empty string", by simp⟩
  | nullv => exact ⟨"binding must be a non-empty string", by simp⟩
  | boolv b => exact ⟨"binding must be a non-empty string", by simp⟩
  | numv x => exact ⟨"binding must be a non-empty string", by simp⟩
  | objv => exact ⟨"binding must be a non-empty string", by simp⟩
  | fnv f => exact ⟨"binding must be a non-empty string", by simp⟩

/-- C10 (witness): wrapping the anonymous function with no options at all
raises a `TypeError` at wrap time. -/
theorem C10_witness : ∃ m, kvCache emptyOpts anonFn emptyOpts = .error (.typeError m) :=
  C10_anonymous_requires_key emptyOpts emptyOpts anonFn rfl rfl

/-! ## Claim C5 -/

/-- C5: when the derived key holds a fresh, readable, well-formed entry, the
wrapped call returns the cached value without invoking the original function,
and calling twice with identical arguments leaves the invocation counter
unchanged (the original function is invoked zero times, hence at most
once). -/
theorem C5_fresh_hit_no_invocation (cfg : Config) (fn : JSFunc) (args : List JSVal)
    (w : WState) (k : String) (text : List Char) (v : JVal)
    (hget : cfg.getter = .dflt)
    (hkey : computeKey cfg args = .ok (some k))
    (henv : envOK w.env cfg.binding = true)
    (hgf : w.store.getFails k = false)
    (hl : List.lookup k w.store.data = some text)
    (hp : jparse text = some v) :
    (cacheCall cfg fn args w).1 = .ok (.val v)
    ∧ (cacheCall cfg fn args (cacheCall cfg fn args w).2).1 = .ok (.val v)
    ∧ (cacheCall cfg fn args (cacheCall cfg fn args w).2).2.fnCalls = w.fnCalls := by
  have h1 := cacheCall_hit cfg fn args w k text v hget hkey henv hgf hl hp
  have henv1 : envOK ({ resolveState w with store :=
      { w.store with getCalls := w.store.getCalls ++ [k] } }).env cfg.binding = true := by
    show envOK (resolveState w).env cfg.binding = true
    rw [resolveState_env]
    exact henv
  have h2 := cacheCall_hit cfg fn args
    { resolveState w with store := { w.store with getCalls := w.store.getCalls ++ [k] } }
    k text v hget hkey henv1 hgf hl hp
  refine ⟨by rw [h1], ?_, ?_⟩
  · simp only [h1, h2]
  · rw [h1]
    show (cacheCall cfg fn args
        { resolveState w with store :=
            { w.store with getCalls := w.store.getCalls ++ [k] } }).2.fnCalls
      = w.fnCalls
    rw [h2]
    simp only [resolveState_fnCalls]

/-- C5 (witness): a store seeded with the entry `5` at key `"k"`: two calls
both return 5 and never invoke the original function. -/
theorem C5_witness :
    (cacheCall plainCfg constFn [] wSeeded).1 = .ok (.val (.num 5))
    ∧ (cacheCall plainCfg constFn [] (cacheCall plainCfg constFn [] wSeeded).2).2.fnCalls
      = wSeeded.fnCalls :=
  ⟨(C5_fresh_hit_no_invocation plainCfg constFn [] wSeeded "k" (jprintV (JVal.num 5))
      (JVal.num 5) rfl rfl rfl rfl rfl (jparse_jprintV (JVal.num 5))).1,
   (C5_fresh_hit_no_invocation plainCfg constFn [] wSeeded "k" (jprintV (JVal.num 5))
      (JVal.num 5) rfl rfl rfl rfl rfl (jparse_jprintV (JVal.num 5))).2.2⟩

/-! ## Claim C6 -/

/-- C6: round-trip through the default strategies: with a store that retains
the written entry (no injected failures at the key), `set(args, v)` followed
by `get(args)` on the same instance yields exactly `v` (structural equality of
the modelled values, hence deep equality). -/
theorem C6_set_get_roundtrip (cfg : Config) (args : List JSVal) (v : JVal) (w : WState)
    (k : String)
    (hget : cfg.getter = .dflt) (hset : cfg.setter = .dflt)
    (hkey : computeKey cfg args = .ok (some k))
    (henv : envOK w.env cfg.binding = true)
    (hpf : w.store.putFails k = false)
    (hgf : w.store.getFails k = false) :
    (getOp cfg args (setOp cfg (args ++ [.val v]) w).2).1 = .ok (.val v) := by
  have hs := setOp_write cfg args v w k hset hkey henv hpf
  have henv1 : envOK ({ resolveState w with store := { w.store with
      putCalls := w.store.putCalls ++ [(k, jprintV v, Rat.floor cfg.ttl)]
      data := (k, jprintV v) :: w.store.data } }).env cfg.binding = true := by
    show envOK (resolveState w).env cfg.binding = true
    rw [resolveState_env]
    exact henv
  have hl1 : List.lookup k ((k, jprintV v) :: w.store.data) = some (jprintV v) := by
    simp [List.lookup]
  have h2 := getOp_hit cfg args
    { resolveState w with store := { w.store with
        putCalls := w.store.putCalls ++ [(k, jprintV v, Rat.floor cfg.ttl)]
        data := (k, jprintV v) :: w.store.data } }
    k (jprintV v) v hget hkey henv1 hgf hl1 (jparse_jprintV v)
  simp only [hs, h2]

/-- C6 (witness): the round-trip at a compound concrete value (negative
number, string with a quote, nested object) on a fresh world. -/
theorem C6_witness :
    (getOp plainCfg [] (setOp plainCfg ([] ++ [.val v6]) freshW).2).1 = .ok (.val v6) :=
  C6_set_get_roundtrip plainCfg [] v6 freshW "k" rfl rfl rfl rfl rfl rfl
